import Mathlib

/-!
# Verification of the autopr daemon against its specification

This file gives a shallow embedding of the parts of the autopr code base
that the specification talks about, and proves (or refutes) the spec's
claims about them.  Go strings are modelled as Lean `String`
(or `List Char` where the claim is about byte lengths and per-rune
processing), Go slices as `List`, machine integers as `Int`/`Nat`,
fallible functions as `Except`/`Option`, and the SQLite tables as
association lists.  External collaborators (the TOML decoder, the JSON
encoder, the git binary) are parameters of the embedded functions.
-/

namespace Autopr

/-! ## CLI `truncate` (cmd/autopr/cli, display helper)

Go source:
```
func truncate(s string, n int) string {
    if len(s) <= n { return s }
    if n <= 3 { return s[:n] }
    return s[:n-3] + "..."
}
```
A Go slice expression `s[:n]` panics when `n < 0`; the panic is modelled
as `none`.  In the branch `n <= 3` the slice is reached only when
`len(s) > n`, so the only panic case is a negative `n`. -/
def truncate (s : List Char) (n : Int) : Option (List Char) :=
  if (s.length : Int) ≤ n then some s
  else if n ≤ 3 then
    if 0 ≤ n then some (s.take n.toNat) else none
  else some (s.take (n - 3).toNat ++ ['.', '.', '.'])

/-! ## Config backup permissions (internal/config, backupConfigFile)

Go source:
```
backupMode := mode & 0o700
if backupMode == 0 { backupMode = 0o600 }
ts := time.Now().Format("20060102-150405")
backupPath := fmt.Sprintf("%s.bak.%s", path, ts)
return os.WriteFile(backupPath, data, backupMode)
```
The wall-clock timestamp is a parameter `ts`; the effect of the
`os.WriteFile` call is reified as a `BackupWrite` record. -/
structure BackupWrite where
  path : String
  contents : String
  mode : Nat

def backupConfigFile (path data : String) (mode : Nat) (ts : String) : BackupWrite :=
  let backupMode := mode &&& 0o700
  let backupMode := if backupMode = 0 then 0o600 else backupMode
  { path := path ++ ".bak." ++ ts, contents := data, mode := backupMode }

/-! ## Sync cursors (internal/db, GetCursor / SetCursor)

The `sync_cursors` table has primary key (project_name, source) and a
`cursor_value` column; it is modelled as a list of rows.  `GetCursor`
maps the `sql.ErrNoRows` case to `("", nil)`:
```
err := s.Reader.QueryRowContext(ctx, q, project, source).Scan(&v)
if err != nil {
    if err == sql.ErrNoRows { return "", nil }
    return "", fmt.Errorf(...)
}
return v.String, nil
```
`SetCursor` is the `INSERT ... ON CONFLICT(project_name, source) DO
UPDATE` statement. -/
structure CursorRow where
  projectName : String
  source : String
  cursorValue : String
  lastSyncedAt : String

def cursorKeyMatches (project source : String) (r : CursorRow) : Bool :=
  r.projectName == project && r.source == source

def GetCursor (rows : List CursorRow) (project source : String) : Except String String :=
  match rows.find? (cursorKeyMatches project source) with
  | some r => .ok r.cursorValue
  | none => .ok ""

def SetCursor (rows : List CursorRow) (project source cursor now : String) : List CursorRow :=
  if rows.any (cursorKeyMatches project source) then
    rows.map fun r =>
      if cursorKeyMatches project source r then
        { r with cursorValue := cursor, lastSyncedAt := now }
      else r
  else rows ++ [⟨project, source, cursor, now⟩]

end Autopr

namespace Autopr

/-! ## The job state machine (internal/db)

Modelled from the spec: the store's job table and its primitives
(`TransitionState`, `CreateJob`, `HasActiveJobForIssue`,
`IncrementIteration`, `GetJob`) are not among the source files under
`src/`; only their callers (internal/pipeline, internal/issuesync) and
their tests (`TestJobStateTransitions`, `TestHasActiveJobForIssue`) are.
The state set, the terminal set and the legal-transition table below
follow spec §4.2 word for word, and agree with the repo's own
`TestJobStateTransitions` on every transition that test exercises
(`queued → planning` via claim, `planning → implementing` legal,
`implementing → ready` illegal, `implementing → reviewing` legal). -/
def stateSet : List String :=
  ["queued", "planning", "implementing", "reviewing", "testing", "ready",
   "rebasing", "resolving_conflicts", "awaiting_checks",
   "approved", "rejected", "failed", "cancelled"]

/-- Terminal states per spec §4.2. -/
def terminalStates : List String := ["approved", "rejected", "failed", "cancelled"]

def nonTerminalStates : List String :=
  ["queued", "planning", "implementing", "reviewing", "testing", "ready",
   "rebasing", "resolving_conflicts", "awaiting_checks"]

/-- The legal-transition table of spec §4.2, row by row; the last three
rows of the spec table are `any non-terminal → cancelled`,
`any non-terminal → failed`, and `failed | rejected → queued`. -/
def legalTransitions : List (String × String) :=
  [("queued", "planning"),
   ("planning", "implementing"),
   ("implementing", "reviewing"),
   ("reviewing", "testing"), ("reviewing", "implementing"),
   ("testing", "ready"), ("testing", "implementing"),
   ("ready", "approved"), ("ready", "rejected"),
   ("approved", "rebasing"), ("approved", "awaiting_checks"),
   ("rebasing", "resolving_conflicts"), ("rebasing", "awaiting_checks"),
   ("resolving_conflicts", "awaiting_checks"), ("resolving_conflicts", "failed"),
   ("awaiting_checks", "approved"), ("awaiting_checks", "failed")]
  ++ nonTerminalStates.map (fun s => (s, "cancelled"))
  ++ nonTerminalStates.map (fun s => (s, "failed"))
  ++ [("failed", "queued"), ("rejected", "queued")]

def legalTransition (src dst : String) : Bool :=
  legalTransitions.contains (src, dst)

/-- A row of the `jobs` table (the columns the claims mention). -/
structure Job where
  id : String
  issueID : String
  projectName : String
  state : String
  iteration : Int
  maxIterations : Int
deriving DecidableEq

/-- The job table. -/
abbrev JobTable := List Job

def getJob (jobs : JobTable) (jobID : String) : Except String Job :=
  match jobs.find? (fun j => j.id == jobID) with
  | some j => .ok j
  | none => .error ("job " ++ jobID ++ " not found")

/-- Modelled from the spec: "`transitionState(from, to)` is atomic and
fails if the current row's state ≠ `from` or `(from, to)` ∉ table"
(spec §4.2); on success only the addressed job's state cell changes. -/
def TransitionState (jobs : JobTable) (jobID src dst : String) : Except String JobTable :=
  match jobs.find? (fun j => j.id == jobID) with
  | none => .error ("job " ++ jobID ++ " not found")
  | some j =>
      if j.state == src && legalTransition src dst then
        .ok (jobs.map fun k => if k.id == jobID then { k with state := dst } else k)
      else
        .error ("illegal transition " ++ src ++ " -> " ++ dst)

/-- The Go idiom `_ = r.store.TransitionState(...)`: perform the
transition, and keep the table unchanged when it fails. -/
def transitionStateDiscard (jobs : JobTable) (jobID src dst : String) : JobTable :=
  match TransitionState jobs jobID src dst with
  | .ok jobs' => jobs'
  | .error _ => jobs

/-- Modelled from the spec: `incrementIteration(id)` (spec §4.1). -/
def IncrementIteration (jobs : JobTable) (jobID : String) : JobTable :=
  jobs.map fun k => if k.id == jobID then { k with iteration := k.iteration + 1 } else k

/-! ## The implement/review/test retry loop (internal/pipeline, handleRetryLoop)

Go source:
```
func (r *Runner) handleRetryLoop(ctx ..., jobID string, ...) error {
    job, err := r.store.GetJob(ctx, jobID)
    if err != nil { return err }
    if job.Iteration >= job.MaxIterations {
        slog.Info("max iterations reached, moving to ready for human review", ...)
        _ = r.store.TransitionState(ctx, jobID, job.State, "ready")
        return nil
    }
    if err := r.store.IncrementIteration(ctx, jobID); err != nil { return err }
    return r.runSteps(ctx, jobID, "implementing", issue, projectCfg, workDir)
}
```
The mutual call back into `r.runSteps` is the parameter `rerun`. -/
def handleRetryLoop (rerun : JobTable → Except String JobTable)
    (jobs : JobTable) (jobID : String) : Except String JobTable :=
  match getJob jobs jobID with
  | .error e => .error e
  | .ok job =>
      if job.iteration ≥ job.maxIterations then
        .ok (transitionStateDiscard jobs jobID job.state "ready")
      else
        rerun (IncrementIteration jobs jobID)

/-! ## Issue ingest (internal/issuesync, createJobIfNeeded) -/

def isTerminalState (s : String) : Bool := terminalStates.contains s

/-- Modelled from the spec: `hasActiveJobForIssue(issueId) → bool`
(spec §4.1) realises the invariant "at most one job for a given issue is
in an 'active' state (any non-terminal state)" (spec §3); its source is
not under `src/`.  The repo's `TestHasActiveJobForIssue` pins that a job
in `queued` counts as active for this predicate. -/
def HasActiveJobForIssue (jobs : JobTable) (ffid : String) : Bool :=
  jobs.any fun j => j.issueID == ffid && !isTerminalState j.state

/-- Modelled from the spec: `create(issueId, project, maxIterations) →
jobId` (spec §4.1); created jobs sit in `queued` until a worker claims
them (spec §2 data flow, pinned by `TestJobStateTransitions`). -/
def CreateJob (jobs : JobTable) (newJobID ffid projectName : String)
    (maxIterations : Int) : JobTable :=
  jobs ++ [{ id := newJobID, issueID := ffid, projectName := projectName,
             state := "queued", iteration := 0, maxIterations := maxIterations }]

/-- From internal/issuesync/syncer.go:
```
func (s *Syncer) createJobIfNeeded(ctx ..., ffid, projectName string) {
    active, err := s.store.HasActiveJobForIssue(ctx, ffid)
    if err != nil { ...; return }
    if active { return }
    jobID, err := s.store.CreateJob(ctx, ffid, projectName, s.cfg.Daemon.MaxIterations)
    ...
}
```
The store lookup/creation errors and the advisory channel send do not
change the job table and are dropped from the model. -/
def createJobIfNeeded (jobs : JobTable) (ffid projectName newJobID : String)
    (maxIterations : Int) : JobTable :=
  if HasActiveJobForIssue jobs ffid then jobs
  else CreateJob jobs newJobID ffid projectName maxIterations

/-- The invariant of spec §3: at most one job tied to any one issue is in
a non-terminal ("active") state. -/
def atMostOneActivePerIssue (jobs : JobTable) : Prop :=
  ∀ ffid, (jobs.countP fun j => j.issueID == ffid && !isTerminalState j.state) ≤ 1

/-- Concrete job for the retry-loop failing input: a job whose iteration
budget is exhausted right after a `reviewing → implementing` (or
`testing → implementing`) transition. -/
def retryExhaustedJob : Job :=
  { id := "ff-job-1", issueID := "ff-1", projectName := "myproject",
    state := "implementing", iteration := 3, maxIterations := 3 }

/-! ## Issue upsert (internal/db, UpsertIssue)

The SQL is
```
INSERT INTO issues(...) VALUES(...)
ON CONFLICT(project_name, source, source_issue_id) DO UPDATE SET
  title=excluded.title, body=excluded.body, url=excluded.url,
  state=excluded.state, labels_json=excluded.labels_json,
  source_meta_json=excluded.source_meta_json,
  source_updated_at=excluded.source_updated_at, synced_at=excluded.synced_at
RETURNING fixflow_issue_id
```
The `issues` table is a row list; the UNIQUE conflict target means at
most one row can match the triple, so the conflict update is modelled as
updating every matching row (there is at most one).  The fresh random id
(`newFixFlowIssueID`) and the wall clock (`nowRFC3339`) are the
parameters `newID` and `now`; the external `json.Marshal` of the labels
is the parameter `jsonEnc`; `SourceMeta map[string]any` is carried
already encoded, as the string the Go code would store. -/
structure IssueRow where
  fixflowIssueID : String
  projectName : String
  source : String
  sourceIssueID : String
  title : String
  body : String
  url : String
  state : String
  labelsJSON : String
  sourceMetaJSON : String
  sourceUpdatedAt : String
  syncedAt : String
deriving DecidableEq

structure IssueUpsert where
  projectName : String
  source : String
  sourceIssueID : String
  title : String
  body : String
  url : String
  state : String
  labels : List String
  sourceMetaJSON : String
  sourceUpdated : String
deriving DecidableEq

def tripleMatches (projectName source sourceIssueID : String) (r : IssueRow) : Bool :=
  r.projectName == projectName && r.source == source && r.sourceIssueID == sourceIssueID

/-- The `DO UPDATE SET` clause: refresh the payload columns, keep the key
columns and the already-assigned `fixflow_issue_id`. -/
def applyIssueUpdate (u : IssueUpsert) (labelsJSON sourceUpdatedAt now : String)
    (x : IssueRow) : IssueRow :=
  { x with title := u.title, body := u.body, url := u.url, state := u.state,
           labelsJSON := labelsJSON, sourceMetaJSON := u.sourceMetaJSON,
           sourceUpdatedAt := sourceUpdatedAt, syncedAt := now }

/-- `labelsJSON := "[]"; if len(in.Labels) > 0 { labelsJSON = string(json.Marshal(...)) }`. -/
def upsertLabelsJSON (jsonEnc : List String → String) (labels : List String) : String :=
  if labels.length > 0 then jsonEnc labels else "[]"

/-- `if in.SourceUpdated == "" { in.SourceUpdated = now }`. -/
def upsertSourceUpdated (u : IssueUpsert) (now : String) : String :=
  if u.sourceUpdated = "" then now else u.sourceUpdated

/-- The row that a non-conflicting `UpsertIssue` inserts (the `VALUES`
clause). -/
def newIssueRow (jsonEnc : List String → String) (newID now : String)
    (u : IssueUpsert) : IssueRow :=
  { fixflowIssueID := newID,
    projectName := u.projectName,
    source := u.source,
    sourceIssueID := u.sourceIssueID,
    title := u.title,
    body := u.body,
    url := u.url,
    state := u.state,
    labelsJSON := upsertLabelsJSON jsonEnc u.labels,
    sourceMetaJSON := u.sourceMetaJSON,
    sourceUpdatedAt := upsertSourceUpdated u now,
    syncedAt := now }

def UpsertIssue (jsonEnc : List String → String) (issues : List IssueRow)
    (newID now : String) (u : IssueUpsert) : String × List IssueRow :=
  match issues.find? (tripleMatches u.projectName u.source u.sourceIssueID) with
  | some r =>
      (r.fixflowIssueID,
        issues.map fun x =>
          if tripleMatches u.projectName u.source u.sourceIssueID x then
            applyIssueUpdate u (upsertLabelsJSON jsonEnc u.labels) (upsertSourceUpdated u now) now x
          else x)
  | none =>
      (newID, issues ++ [newIssueRow jsonEnc newID now u])

/-! ## Working-copy manager (internal/git, CloneForJob)

Modelled from the spec: the current `CloneForJob` — the one with the
token argument that internal/pipeline calls and that
`TestCloneForJob_RemovesStaleDestinationAndSucceeds` /
`TestCloneForJob_RejectsUnsafeDestination` exercise — is not among the
source files under `src/` (the `CloneForJob` in the git package there
has the older five-argument signature, which those callers and tests no
longer match).  Spec §4.6: "Before cloning, a stale destination
directory is removed wholesale.  The clone path is rejected if empty,
`.`, `..`, or the filesystem root."  The filesystem is a partial map
from directory paths to directory contents; the git subprocesses are
summarised by the contents `cloneContent` they produce at the
destination. -/
abbrev FileSystem := String → Option String

def cloneContent (repoURL branchName baseBranch : String) : String :=
  "clone of " ++ repoURL ++ " on " ++ branchName ++ " from " ++ baseBranch

/-- `os.RemoveAll` on a directory path: the whole tree at that path is gone. -/
def removeAll (fs : FileSystem) (path : String) : FileSystem :=
  fun q => if q = path then none else fs q

def CloneForJob (fs : FileSystem) (repoURL token destPath branchName baseBranch : String) :
    Except String FileSystem :=
  if destPath = "" then
    .error "clone destination path is empty"
  else if destPath = "." ∨ destPath = ".." ∨ destPath = "/" then
    .error ("unsafe clone destination: " ++ destPath)
  else
    let fs' := removeAll fs destPath
    .ok fun q =>
      if q = destPath then some (cloneContent repoURL branchName baseBranch) else fs' q

/-! ## Config migration (internal/config, MigrateConfigFile)

Go source (the shape the claim is about):
```
data, err := os.ReadFile(path)
if err != nil { if os.IsNotExist(err) { return nil }; ... }
ver := detectConfigVersion(data)
if ver >= CurrentConfigVersion { return nil }
...
if err := backupConfigFile(path, data, mode); err != nil { ... }
current := data
for v := ver; v < CurrentConfigVersion; v++ { current, err = migrations[v](current) ... }
if err := os.WriteFile(path, current, mode); err != nil { ... }
```
`detectConfigVersion` decodes the `config_version` field with the
external BurntSushi TOML decoder and is the parameter `detect`;
`CurrentConfigVersion = 1`, so the loop body is exactly the registered
`migrations[0] = migrateV0toV1`, the parameter `migrate0`.  The outcome
records the final file bytes and whether a timestamped backup was
written; a failing migration aborts with an error (after the backup). -/
def CurrentConfigVersion : Nat := 1

structure MigrateOutcome where
  file : Option String
  backupWritten : Bool
deriving DecidableEq

def MigrateConfigFile (detect : String → Nat) (migrate0 : String → Except String String)
    (file : Option String) : Except String MigrateOutcome :=
  match file with
  | none => .ok { file := none, backupWritten := false }
  | some data =>
      if detect data ≥ CurrentConfigVersion then
        .ok { file := some data, backupWritten := false }
      else
        match migrate0 data with
        | .error e => .error e
        | .ok current => .ok { file := some current, backupWritten := true }

/-! ## Branch names (internal/pipeline, slugify and buildBranchName)

Strings are lists of characters here; `strings.ToLower` is modelled by
the ASCII lowering `Char.toLower` (the property proved below does not
depend on which characters are lowered, only on which survive the
slugify filter).  `db.ShortID` is not among the source files under
`src/` and the spec does not describe it, so it is a parameter. -/

/-- The per-rune filter of `slugify`: keep `a–z`/`0–9`, turn the
separators space, `-`, `_`, `/`, `.` into `-`, and drop everything
else. -/
def slugChar (c : Char) : List Char :=
  if ('a' ≤ c ∧ c ≤ 'z') ∨ ('0' ≤ c ∧ c ≤ '9') then [c]
  else if c = ' ' ∨ c = '-' ∨ c = '_' ∨ c = '/' ∨ c = '.' then ['-']
  else []

/-- One pass of `strings.ReplaceAll(result, "--", "-")` (leftmost,
non-overlapping). -/
def replaceDoubleHyphen : List Char → List Char
  | [] => []
  | [c] => [c]
  | c1 :: c2 :: rest =>
      if c1 = '-' ∧ c2 = '-' then '-' :: replaceDoubleHyphen rest
      else c1 :: replaceDoubleHyphen (c2 :: rest)

/-- `strings.Contains(result, "--")`. -/
def containsDoubleHyphen : List Char → Bool
  | c1 :: c2 :: rest => (c1 = '-' && c2 = '-') || containsDoubleHyphen (c2 :: rest)
  | _ => false

theorem replaceDoubleHyphen_length_le :
    ∀ l : List Char, (replaceDoubleHyphen l).length ≤ l.length
  | [] => by simp [replaceDoubleHyphen]
  | [c] => by simp [replaceDoubleHyphen]
  | c1 :: c2 :: rest => by
      by_cases h : c1 = '-' ∧ c2 = '-'
      · have ih := replaceDoubleHyphen_length_le rest
        simp only [replaceDoubleHyphen, if_pos h, List.length_cons]
        omega
      · have ih := replaceDoubleHyphen_length_le (c2 :: rest)
        simp only [List.length_cons] at ih
        simp only [replaceDoubleHyphen, if_neg h, List.length_cons]
        omega

theorem replaceDoubleHyphen_length_lt :
    ∀ l : List Char, containsDoubleHyphen l = true →
      (replaceDoubleHyphen l).length < l.length
  | [] => by intro h; exact absurd h (by simp [containsDoubleHyphen])
  | [c] => by intro h; exact absurd h (by simp [containsDoubleHyphen])
  | c1 :: c2 :: rest => by
      intro h
      by_cases hc : c1 = '-' ∧ c2 = '-'
      · have hle := replaceDoubleHyphen_length_le rest
        simp only [replaceDoubleHyphen, if_pos hc, List.length_cons]
        omega
      · have h2 : containsDoubleHyphen (c2 :: rest) = true := by
          simp only [containsDoubleHyphen, Bool.or_eq_true, Bool.and_eq_true,
            decide_eq_true_eq] at h
          rcases h with ⟨ha, hb⟩ | h
          · exact absurd ⟨ha, hb⟩ hc
          · exact h
        have ih := replaceDoubleHyphen_length_lt (c2 :: rest) h2
        simp only [List.length_cons] at ih
        simp only [replaceDoubleHyphen, if_neg hc, List.length_cons]
        omega

/-- `for strings.Contains(result, "--") { result = ReplaceAll(result, "--", "-") }`. -/
def collapseHyphens (l : List Char) : List Char :=
  if h : containsDoubleHyphen l = true then collapseHyphens (replaceDoubleHyphen l)
  else l
termination_by l.length
decreasing_by exact replaceDoubleHyphen_length_lt l h

/-- `strings.Trim(result, "-")`. -/
def trimHyphens (l : List Char) : List Char :=
  ((l.dropWhile fun c => c = '-').reverse.dropWhile fun c => c = '-').reverse

/-- `strings.TrimRight(name, "-")`. -/
def trimRightHyphens (l : List Char) : List Char :=
  (l.reverse.dropWhile fun c => c = '-').reverse

def slugify (title : List Char) : List Char :=
  trimHyphens (collapseHyphens ((title.map Char.toLower).flatMap slugChar))

/-- The Go local `prefix`: `"autopr/"`, extended with
`issue.Source + "-" + issue.SourceIssueID + "-"` when both are
non-empty. -/
def branchNameStart (source sourceIssueID : List Char) : List Char :=
  "autopr/".toList ++
    (if source ≠ [] ∧ sourceIssueID ≠ [] then source ++ ['-'] ++ sourceIssueID ++ ['-'] else [])

def buildBranchName (shortID : List Char → List Char)
    (source sourceIssueID title jobID : List Char) : List Char :=
  if slugify title = [] then "autopr/".toList ++ shortID jobID
  else if (branchNameStart source sourceIssueID ++ slugify title).length > 60 then
    trimRightHyphens ((branchNameStart source sourceIssueID ++ slugify title).take 60)
  else branchNameStart source sourceIssueID ++ slugify title

end Autopr

namespace Autopr

/-- C9 counterexample: the claim quantifies over every integer `n`, but at
`s = "a"`, `n = -1` the Go code evaluates `s[:n]` with a negative bound and
panics instead of returning a string, so "truncate(s, n) returns a string of
length never greater than n" is false at this input. -/
theorem truncate_neg_input_panics : truncate ['a'] (-1) = none := by decide

/-- C9 (amended): for every string `s` and every integer `n ≥ 0`,
`truncate s n` returns a string of length at most `n`, and when `n ≤ 3` the
result is a plain prefix of `s` with no ellipsis appended; the
three-character ellipsis is appended only when `n > 3`. -/
theorem truncate_length_le_and_ellipsis_only_when_gt_three
    (s : List Char) (n : Int) (hn : 0 ≤ n) :
    ∃ r, truncate s n = some r ∧ (r.length : Int) ≤ n ∧
      (n ≤ 3 → ∃ k, r = s.take k) := by
  unfold truncate
  by_cases h1 : (s.length : Int) ≤ n
  · exact ⟨s, by simp [h1], h1, fun _ => ⟨s.length, (List.take_length s).symm⟩⟩
  · by_cases h2 : n ≤ 3
    · refine ⟨s.take n.toNat, by simp [h1, h2, hn], ?_, fun _ => ⟨n.toNat, rfl⟩⟩
      have : (s.take n.toNat).length = n.toNat := by
        have hlt : n.toNat < s.length := by omega
        simp [List.length_take]
        omega
      rw [this]
      omega
    · refine ⟨s.take (n - 3).toNat ++ ['.', '.', '.'], by simp [h1, h2], ?_, fun h => by omega⟩
      have hlt : (n - 3).toNat ≤ s.length := by omega
      have : (s.take (n - 3).toNat).length = (n - 3).toNat := by
        simp [List.length_take]
        omega
      simp [this]
      omega

/-- C9 witness: the amended statement applied at `s = "abcdef"`, `n = 5`. -/
theorem truncate_length_le_witness :
    (0 : Int) ≤ 5 ∧
      ∃ r, truncate ['a', 'b', 'c', 'd', 'e', 'f'] 5 = some r ∧ (r.length : Int) ≤ 5 ∧
        ((5 : Int) ≤ 3 → ∃ k, r = (['a', 'b', 'c', 'd', 'e', 'f'] : List Char).take k) :=
  ⟨by norm_num,
    truncate_length_le_and_ellipsis_only_when_gt_three ['a', 'b', 'c', 'd', 'e', 'f'] 5
      (by norm_num)⟩

/-- C7 counterexample: for a source file mode whose owner bits are all zero
(here `0o044`), the backup is written with mode `0o600`, not
`0o044 & 0o700 = 0`, so the claim "for every source file mode m, the backup
file is written with mode equal to m & 0o700" fails. -/
theorem backupConfigFile_not_always_owner_bits :
    (backupConfigFile "config.toml" "log_level = \"info\"" 0o044 "20260101-000000").mode
      ≠ 0o044 &&& 0o700 := by decide

/-- C7 (amended): the backup is written with the source mode restricted to
its owner bits (`m & 0o700`) whenever those bits are non-zero; when
`m & 0o700 = 0` the code falls back to mode `0o600`.  The backup contents
are the source file's bytes. -/
theorem backupConfigFile_mode_spec (path data : String) (mode : Nat) (ts : String) :
    (mode &&& 0o700 ≠ 0 → (backupConfigFile path data mode ts).mode = mode &&& 0o700) ∧
      (mode &&& 0o700 = 0 → (backupConfigFile path data mode ts).mode = 0o600) ∧
      (backupConfigFile path data mode ts).contents = data := by
  refine ⟨fun h => ?_, fun h => ?_, rfl⟩ <;> simp [backupConfigFile, h]

/-- C7 witness: the amended statement applied at mode `0o644`, giving a
backup mode of `0o600 = 0o644 & 0o700` (the case the repo's own test
`TestMigrateBackupStripsGroupOtherBits` pins down). -/
theorem backupConfigFile_mode_spec_witness :
    (backupConfigFile "config.toml" "log_level = \"info\"" 0o644 "20260101-000000").mode
      = 0o644 &&& 0o700 :=
  (backupConfigFile_mode_spec "config.toml" "log_level = \"info\"" 0o644 "20260101-000000").1
    (by decide)

/-- C10: `GetCursor` for a (project, source) pair with no stored row returns
the empty string with a nil error (`Except.ok ""`), and after storing an
empty cursor for that pair it returns exactly the same value, so a caller
cannot distinguish an absent cursor from an empty stored one. -/
theorem GetCursor_absent_is_ok_empty (rows : List CursorRow) (project source now : String)
    (h : rows.find? (cursorKeyMatches project source) = none) :
    GetCursor rows project source = .ok "" ∧
      GetCursor (SetCursor rows project source "" now) project source = .ok "" := by
  have hany : rows.any (cursorKeyMatches project source) = false := by
    rw [List.any_eq_false]
    intro r hr
    intro hmatch
    have := List.find?_isSome.mpr ⟨r, hr, hmatch⟩
    rw [h] at this
    simp at this
  constructor
  · simp [GetCursor, h]
  · simp only [SetCursor, hany, if_false, Bool.false_eq_true]
    unfold GetCursor
    rw [List.find?_append, h]
    simp [cursorKeyMatches]

/-- C10 witness: the theorem applied to the empty cursor table. -/
theorem GetCursor_absent_is_ok_empty_witness :
    GetCursor [] "myproject" "gitlab" = .ok "" ∧
      GetCursor (SetCursor [] "myproject" "gitlab" "" "2026-01-01T00:00:00Z") "myproject" "gitlab"
        = .ok "" :=
  GetCursor_absent_is_ok_empty [] "myproject" "gitlab" "2026-01-01T00:00:00Z" rfl

/-- Every target of a legal transition is one of the enumerated states. -/
theorem legalTransitions_target_mem : ∀ p ∈ legalTransitions, p.2 ∈ stateSet := by decide

/-- C1: a job in `implementing` whose iteration budget is exhausted.  The
claim (and spec §4.4) say `handleRetryLoop` moves it to `ready`; the code
calls `TransitionState(implementing → ready)`, which the legal-transition
table rejects (the repo's own `TestJobStateTransitions` asserts exactly
this transition errors), and discards the error, so the job's stored
state stays `implementing`.  This holds for every continuation `rerun`
because the exhausted branch never re-enters the pipeline. -/
theorem handleRetryLoop_exhausted_stays_implementing
    (rerun : JobTable → Except String JobTable) :
    handleRetryLoop rerun [retryExhaustedJob] "ff-job-1" = .ok [retryExhaustedJob] ∧
      (∃ e, TransitionState [retryExhaustedJob] "ff-job-1" "implementing" "ready" = .error e) ∧
      (getJob [retryExhaustedJob] "ff-job-1").map Job.state = .ok "implementing" :=
  ⟨rfl, ⟨_, rfl⟩, rfl⟩

/-- C2: `TransitionState id from to` succeeds exactly when the addressed
job's stored state equals `from` and `(from, to)` is in the
legal-transition table; on success only that job's state cell changes
(to `to`), and a table whose states all lie in the enumerated state set
still has that property afterwards. -/
theorem TransitionState_ok_iff_legal (jobs : JobTable) (jobID src dst : String) :
    ((∃ jobs', TransitionState jobs jobID src dst = .ok jobs') ↔
        ((∃ j, getJob jobs jobID = .ok j ∧ j.state = src) ∧ (src, dst) ∈ legalTransitions)) ∧
      (∀ jobs', TransitionState jobs jobID src dst = .ok jobs' →
        jobs' = jobs.map (fun k => if k.id == jobID then { k with state := dst } else k) ∧
          ((∀ j ∈ jobs, j.state ∈ stateSet) → ∀ j ∈ jobs', j.state ∈ stateSet)) := by
  cases hfind : jobs.find? (fun j => j.id == jobID) with
  | none =>
      have hTS : TransitionState jobs jobID src dst
          = .error ("job " ++ jobID ++ " not found") := by
        unfold TransitionState
        rw [hfind]
      have hGJ : getJob jobs jobID = .error ("job " ++ jobID ++ " not found") := by
        unfold getJob
        rw [hfind]
      rw [hTS, hGJ]
      refine ⟨⟨?_, ?_⟩, ?_⟩
      · rintro ⟨jobs', h⟩
        exact Except.noConfusion h
      · rintro ⟨⟨j, hj, _⟩, _⟩
        exact Except.noConfusion hj
      · intro jobs' h
        exact Except.noConfusion h
  | some j =>
      have hTS : TransitionState jobs jobID src dst
          = if (j.state == src && legalTransition src dst) = true then
              Except.ok (jobs.map fun k => if k.id == jobID then { k with state := dst } else k)
            else Except.error ("illegal transition " ++ src ++ " -> " ++ dst) := by
        unfold TransitionState
        rw [hfind]
      have hGJ : getJob jobs jobID = .ok j := by
        unfold getJob
        rw [hfind]
      rw [hTS, hGJ]
      by_cases hcond : (j.state == src && legalTransition src dst) = true
      · have hstate : j.state = src := eq_of_beq (Bool.and_eq_true _ _ |>.mp hcond).1
        have hlegal : (src, dst) ∈ legalTransitions := by
          have hc : legalTransitions.contains (src, dst) = true :=
            (Bool.and_eq_true _ _ |>.mp hcond).2
          exact List.elem_iff.mp hc
        rw [if_pos hcond]
        refine ⟨⟨fun _ => ⟨⟨j, rfl, hstate⟩, hlegal⟩, fun _ => ⟨_, rfl⟩⟩, ?_⟩
        rintro jobs' hok
        have heq : jobs' = jobs.map fun k => if k.id == jobID then { k with state := dst } else k :=
          (Except.ok.inj hok).symm
        refine ⟨heq, fun hall i hi => ?_⟩
        subst heq
        rcases List.mem_map.mp hi with ⟨k, hk, rfl⟩
        by_cases hid : (k.id == jobID) = true
        · rw [if_pos hid]
          exact legalTransitions_target_mem (src, dst) hlegal
        · rw [if_neg hid]
          exact hall k hk
      · rw [if_neg hcond]
        refine ⟨⟨?_, ?_⟩, ?_⟩
        · rintro ⟨jobs', h⟩
          exact Except.noConfusion h
        · rintro ⟨⟨j', hj', hstate⟩, hlegal⟩
          exfalso
          apply hcond
          have hjj : j = j' := Except.ok.inj hj'
          have hs : (j.state == src) = true := beq_iff_eq.mpr (by rw [hjj]; exact hstate)
          have hl : legalTransition src dst = true := List.elem_iff.mpr hlegal
          rw [hs, hl]
          rfl
        · intro jobs' h
          exact Except.noConfusion h

/-- C2 witness: the iff applied at the one-job table pinned by
`TestJobStateTransitions` (`planning → implementing` succeeds), and the
state-set preservation applied to the resulting table. -/
theorem TransitionState_ok_iff_legal_witness :
    (∃ jobs', TransitionState
        [{ id := "ff-job-1", issueID := "ff-1", projectName := "myproject",
           state := "planning", iteration := 0, maxIterations := 3 }]
        "ff-job-1" "planning" "implementing" = .ok jobs') ∧
      ({ id := "ff-job-1", issueID := "ff-1", projectName := "myproject",
         state := "implementing", iteration := 0, maxIterations := 3 } : Job).state ∈ stateSet := by
  constructor
  · exact (TransitionState_ok_iff_legal _ "ff-job-1" "planning" "implementing").1.mpr
      ⟨⟨_, rfl, rfl⟩, by decide⟩
  · exact ((TransitionState_ok_iff_legal
        [{ id := "ff-job-1", issueID := "ff-1", projectName := "myproject",
           state := "planning", iteration := 0, maxIterations := 3 }]
        "ff-job-1" "planning" "implementing").2 _ rfl).2 (by decide) _ (by decide)

/-- C3: delivering the same issue twice creates exactly one job — the
second `createJobIfNeeded` is a no-op because the job created by the
first (in `queued`, a non-terminal state) makes `HasActiveJobForIssue`
true — and `createJobIfNeeded` preserves the invariant that at most one
job per issue is in an active (non-terminal) state. -/
theorem createJobIfNeeded_dedup_and_invariant
    (jobs : JobTable) (ffid projectName id1 id2 : String) (maxIterations : Int) :
    createJobIfNeeded (createJobIfNeeded jobs ffid projectName id1 maxIterations)
        ffid projectName id2 maxIterations
      = createJobIfNeeded jobs ffid projectName id1 maxIterations ∧
      (HasActiveJobForIssue jobs ffid = false →
        (createJobIfNeeded (createJobIfNeeded jobs ffid projectName id1 maxIterations)
            ffid projectName id2 maxIterations).length = jobs.length + 1) ∧
      (atMostOneActivePerIssue jobs →
        atMostOneActivePerIssue (createJobIfNeeded jobs ffid projectName id1 maxIterations)) := by
  by_cases hact : HasActiveJobForIssue jobs ffid = true
  · have h1 : createJobIfNeeded jobs ffid projectName id1 maxIterations = jobs := by
      unfold createJobIfNeeded
      rw [if_pos hact]
    refine ⟨?_, ?_, ?_⟩
    · rw [h1]
      unfold createJobIfNeeded
      rw [if_pos hact]
    · intro hfalse
      rw [hact] at hfalse
      exact Bool.noConfusion hfalse
    · intro hinv
      rw [h1]
      exact hinv
  · have hfirst : createJobIfNeeded jobs ffid projectName id1 maxIterations
        = CreateJob jobs id1 ffid projectName maxIterations := by
      unfold createJobIfNeeded
      rw [if_neg hact]
    have hqueued : isTerminalState "queued" = false := by decide
    have hsecond : HasActiveJobForIssue
        (CreateJob jobs id1 ffid projectName maxIterations) ffid = true := by
      unfold HasActiveJobForIssue CreateJob
      rw [List.any_append]
      simp [hqueued]
    refine ⟨?_, ?_, ?_⟩
    · rw [hfirst]
      unfold createJobIfNeeded
      rw [if_pos hsecond]
    · intro _
      rw [hfirst]
      unfold createJobIfNeeded
      rw [if_pos hsecond]
      unfold CreateJob
      rw [List.length_append]
      rfl
    · intro hinv
      rw [hfirst]
      intro f
      unfold CreateJob
      rw [List.countP_append]
      by_cases hf : f = ffid
      · subst hf
        have hzero : (jobs.countP fun j => j.issueID == f && !isTerminalState j.state) = 0 := by
          rw [List.countP_eq_zero]
          intro j hj hcontra
          have hone : HasActiveJobForIssue jobs f = true :=
            List.any_eq_true.mpr ⟨j, hj, hcontra⟩
          exact hact hone
        rw [hzero]
        simp [hqueued]
      · have hnew : (List.countP (fun (j : Job) => j.issueID == f && !isTerminalState j.state)
            [{ id := id1, issueID := ffid, projectName := projectName,
               state := "queued", iteration := 0, maxIterations := maxIterations }]) = 0 := by
          rw [List.countP_eq_zero]
          intro j hj
          rcases List.mem_singleton.mp hj with rfl
          have hne : (ffid == f) = false := beq_false_of_ne (Ne.symm hf)
          simp [hne]
        rw [hnew]
        simpa using hinv f

/-- `find?` over an update-in-place map: when the update preserves the
predicate, finding after updating is updating the found row. -/
theorem find?_map_ite {α : Type} (q : α → Bool) (f : α → α)
    (hpres : ∀ x, q x = true → q (f x) = true) :
    ∀ l : List α, (l.map fun x => if q x then f x else x).find? q = (l.find? q).map f := by
  intro l
  induction l with
  | nil => rfl
  | cons x xs ih =>
      by_cases hx : q x = true
      · rw [List.map_cons, if_pos hx, List.find?_cons_of_pos _ (hpres x hx),
          List.find?_cons_of_pos _ hx]
        rfl
      · rw [List.map_cons, if_neg hx, List.find?_cons_of_neg _ (by simpa using hx),
          List.find?_cons_of_neg _ (by simpa using hx), ih]

/-- `UpsertIssue` on a conflicting triple returns the stored id. -/
theorem UpsertIssue_conflict_fst (jsonEnc : List String → String) (issues : List IssueRow)
    (newID now : String) (u : IssueUpsert) (r : IssueRow)
    (hfind : issues.find? (tripleMatches u.projectName u.source u.sourceIssueID) = some r) :
    (UpsertIssue jsonEnc issues newID now u).1 = r.fixflowIssueID := by
  unfold UpsertIssue
  rw [hfind]

/-- `UpsertIssue` on a conflicting triple updates the matching row in
place. -/
theorem UpsertIssue_conflict_snd (jsonEnc : List String → String) (issues : List IssueRow)
    (newID now : String) (u : IssueUpsert) (r : IssueRow)
    (hfind : issues.find? (tripleMatches u.projectName u.source u.sourceIssueID) = some r) :
    (UpsertIssue jsonEnc issues newID now u).2
      = issues.map fun x =>
          if tripleMatches u.projectName u.source u.sourceIssueID x then
            applyIssueUpdate u (upsertLabelsJSON jsonEnc u.labels) (upsertSourceUpdated u now)
              now x
          else x := by
  unfold UpsertIssue
  rw [hfind]

/-- `UpsertIssue` with no conflicting triple returns the fresh id. -/
theorem UpsertIssue_insert_fst (jsonEnc : List String → String) (issues : List IssueRow)
    (newID now : String) (u : IssueUpsert)
    (hfind : issues.find? (tripleMatches u.projectName u.source u.sourceIssueID) = none) :
    (UpsertIssue jsonEnc issues newID now u).1 = newID := by
  unfold UpsertIssue
  rw [hfind]

/-- `UpsertIssue` with no conflicting triple appends a new row. -/
theorem UpsertIssue_insert_snd (jsonEnc : List String → String) (issues : List IssueRow)
    (newID now : String) (u : IssueUpsert)
    (hfind : issues.find? (tripleMatches u.projectName u.source u.sourceIssueID) = none) :
    (UpsertIssue jsonEnc issues newID now u).2
      = issues ++ [newIssueRow jsonEnc newID now u] := by
  unfold UpsertIssue
  rw [hfind]

/-- C4: upserting twice with the same (project, source, source-issue-id)
triple returns the same canonical id both times — in particular the id
assigned when the first upsert inserts is preserved — and after the
second upsert the stored row carries the latest title, body, url, state
and labels. -/
theorem UpsertIssue_twice_stable_id_latest_fields (jsonEnc : List String → String)
    (issues : List IssueRow) (newID1 newID2 now1 now2 : String) (u1 u2 : IssueUpsert)
    (h1 : u1.projectName = u2.projectName) (h2 : u1.source = u2.source)
    (h3 : u1.sourceIssueID = u2.sourceIssueID) :
    (UpsertIssue jsonEnc (UpsertIssue jsonEnc issues newID1 now1 u1).2 newID2 now2 u2).1
        = (UpsertIssue jsonEnc issues newID1 now1 u1).1 ∧
      ∃ r, (UpsertIssue jsonEnc (UpsertIssue jsonEnc issues newID1 now1 u1).2
              newID2 now2 u2).2.find?
              (tripleMatches u2.projectName u2.source u2.sourceIssueID) = some r ∧
        r.fixflowIssueID = (UpsertIssue jsonEnc issues newID1 now1 u1).1 ∧
        r.title = u2.title ∧ r.body = u2.body ∧ r.url = u2.url ∧ r.state = u2.state ∧
        r.labelsJSON = upsertLabelsJSON jsonEnc u2.labels := by
  have hq : tripleMatches u1.projectName u1.source u1.sourceIssueID
      = tripleMatches u2.projectName u2.source u2.sourceIssueID := by
    rw [h1, h2, h3]
  cases hfind : issues.find? (tripleMatches u2.projectName u2.source u2.sourceIssueID) with
  | some r =>
      have hfind1 : issues.find? (tripleMatches u1.projectName u1.source u1.sourceIssueID)
          = some r := by rw [hq]; exact hfind
      have e1f := UpsertIssue_conflict_fst jsonEnc issues newID1 now1 u1 r hfind1
      have e1s := UpsertIssue_conflict_snd jsonEnc issues newID1 now1 u1 r hfind1
      simp only [hq] at e1s
      have hfound1 : (UpsertIssue jsonEnc issues newID1 now1 u1).2.find?
          (tripleMatches u2.projectName u2.source u2.sourceIssueID)
          = some (applyIssueUpdate u1 (upsertLabelsJSON jsonEnc u1.labels)
              (upsertSourceUpdated u1 now1) now1 r) := by
        rw [e1s]
        rw [find?_map_ite (tripleMatches u2.projectName u2.source u2.sourceIssueID)
          (applyIssueUpdate u1 (upsertLabelsJSON jsonEnc u1.labels)
            (upsertSourceUpdated u1 now1) now1) (fun x hx => hx) issues]
        rw [hfind]
        rfl
      have e2f := UpsertIssue_conflict_fst jsonEnc (UpsertIssue jsonEnc issues newID1 now1 u1).2
        newID2 now2 u2 _ hfound1
      have e2s := UpsertIssue_conflict_snd jsonEnc (UpsertIssue jsonEnc issues newID1 now1 u1).2
        newID2 now2 u2 _ hfound1
      refine ⟨?_, ?_⟩
      · rw [e2f, e1f]
        rfl
      · refine ⟨applyIssueUpdate u2 (upsertLabelsJSON jsonEnc u2.labels)
          (upsertSourceUpdated u2 now2) now2
          (applyIssueUpdate u1 (upsertLabelsJSON jsonEnc u1.labels)
            (upsertSourceUpdated u1 now1) now1 r), ?_, ?_, rfl, rfl, rfl, rfl, rfl⟩
        · rw [e2s]
          rw [find?_map_ite (tripleMatches u2.projectName u2.source u2.sourceIssueID)
            (applyIssueUpdate u2 (upsertLabelsJSON jsonEnc u2.labels)
              (upsertSourceUpdated u2 now2) now2) (fun x hx => hx) _]
          rw [hfound1]
          rfl
        · rw [e1f]
          rfl
  | none =>
      have hfind1 : issues.find? (tripleMatches u1.projectName u1.source u1.sourceIssueID)
          = none := by rw [hq]; exact hfind
      have e1f := UpsertIssue_insert_fst jsonEnc issues newID1 now1 u1 hfind1
      have e1s := UpsertIssue_insert_snd jsonEnc issues newID1 now1 u1 hfind1
      have hrow1 : tripleMatches u2.projectName u2.source u2.sourceIssueID
          (newIssueRow jsonEnc newID1 now1 u1) = true := by
        simp [tripleMatches, newIssueRow, h1, h2, h3]
      have hfound1 : (UpsertIssue jsonEnc issues newID1 now1 u1).2.find?
          (tripleMatches u2.projectName u2.source u2.sourceIssueID)
          = some (newIssueRow jsonEnc newID1 now1 u1) := by
        rw [e1s]
        rw [List.find?_append, hfind, List.find?_cons_of_pos _ hrow1]
        rfl
      have e2f := UpsertIssue_conflict_fst jsonEnc (UpsertIssue jsonEnc issues newID1 now1 u1).2
        newID2 now2 u2 _ hfound1
      have e2s := UpsertIssue_conflict_snd jsonEnc (UpsertIssue jsonEnc issues newID1 now1 u1).2
        newID2 now2 u2 _ hfound1
      refine ⟨?_, ?_⟩
      · rw [e2f, e1f]
        rfl
      · refine ⟨applyIssueUpdate u2 (upsertLabelsJSON jsonEnc u2.labels)
          (upsertSourceUpdated u2 now2) now2 (newIssueRow jsonEnc newID1 now1 u1),
          ?_, ?_, rfl, rfl, rfl, rfl, rfl⟩
        · rw [e2s]
          rw [find?_map_ite (tripleMatches u2.projectName u2.source u2.sourceIssueID)
            (applyIssueUpdate u2 (upsertLabelsJSON jsonEnc u2.labels)
              (upsertSourceUpdated u2 now2) now2) (fun x hx => hx) _]
          rw [hfound1]
          rfl
        · rw [e1f]
          rfl

/-- C4 witness: the theorem applied to the empty issue table with the
two upserts of `TestUpsertIssueAssignsAndPreservesFixFlowIssueID`
(second upsert changes the title to "boom updated"). -/
theorem UpsertIssue_twice_stable_id_witness :
    (UpsertIssue (fun _ => "[]")
          (UpsertIssue (fun _ => "[]") [] "ff-a" "t1"
            { projectName := "myproject", source := "sentry", sourceIssueID := "95751702",
              title := "boom", body := "", url := "https://sentry.local/issues/95751702",
              state := "open", labels := [], sourceMetaJSON := "\x7b\x7d",
              sourceUpdated := "" }).2
          "ff-b" "t2"
          { projectName := "myproject", source := "sentry", sourceIssueID := "95751702",
            title := "boom updated", body := "", url := "https://sentry.local/issues/95751702",
            state := "open", labels := [], sourceMetaJSON := "\x7b\x7d",
            sourceUpdated := "" }).1
        = (UpsertIssue (fun _ => "[]") [] "ff-a" "t1"
            { projectName := "myproject", source := "sentry", sourceIssueID := "95751702",
              title := "boom", body := "", url := "https://sentry.local/issues/95751702",
              state := "open", labels := [], sourceMetaJSON := "\x7b\x7d",
              sourceUpdated := "" }).1 ∧
      ∃ r, (UpsertIssue (fun _ => "[]")
              (UpsertIssue (fun _ => "[]") [] "ff-a" "t1"
                { projectName := "myproject", source := "sentry", sourceIssueID := "95751702",
                  title := "boom", body := "", url := "https://sentry.local/issues/95751702",
                  state := "open", labels := [], sourceMetaJSON := "\x7b\x7d",
                  sourceUpdated := "" }).2
              "ff-b" "t2"
              { projectName := "myproject", source := "sentry", sourceIssueID := "95751702",
                title := "boom updated", body := "", url := "https://sentry.local/issues/95751702",
                state := "open", labels := [], sourceMetaJSON := "\x7b\x7d",
                sourceUpdated := "" }).2.find?
              (tripleMatches "myproject" "sentry" "95751702") = some r ∧
        r.fixflowIssueID
            = (UpsertIssue (fun _ => "[]") [] "ff-a" "t1"
                { projectName := "myproject", source := "sentry", sourceIssueID := "95751702",
                  title := "boom", body := "", url := "https://sentry.local/issues/95751702",
                  state := "open", labels := [], sourceMetaJSON := "\x7b\x7d",
                  sourceUpdated := "" }).1 ∧
        r.title = "boom updated" ∧ r.body = "" ∧
        r.url = "https://sentry.local/issues/95751702" ∧ r.state = "open" ∧
        r.labelsJSON = upsertLabelsJSON (fun _ => "[]") [] :=
  UpsertIssue_twice_stable_id_latest_fields (fun _ => "[]") [] "ff-a" "ff-b" "t1" "t2"
    { projectName := "myproject", source := "sentry", sourceIssueID := "95751702",
      title := "boom", body := "", url := "https://sentry.local/issues/95751702",
      state := "open", labels := [], sourceMetaJSON := "\x7b\x7d", sourceUpdated := "" }
    { projectName := "myproject", source := "sentry", sourceIssueID := "95751702",
      title := "boom updated", body := "", url := "https://sentry.local/issues/95751702",
      state := "open", labels := [], sourceMetaJSON := "\x7b\x7d", sourceUpdated := "" }
    rfl rfl rfl

/-- C5: the clone path is rejected with an error when empty, `.`, `..`
or the filesystem root, and on any other path the stale destination
directory is removed wholesale before cloning: the resulting directory
contents at the destination are the fresh clone, independent of what was
there, and no other path changes. -/
theorem CloneForJob_rejects_unsafe_and_removes_stale
    (fs : FileSystem) (repoURL token destPath branchName baseBranch : String) :
    ((destPath = "" ∨ destPath = "." ∨ destPath = ".." ∨ destPath = "/") →
        ∃ e, CloneForJob fs repoURL token destPath branchName baseBranch = .error e) ∧
      (destPath ≠ "" → destPath ≠ "." → destPath ≠ ".." → destPath ≠ "/" →
        ∃ fs', CloneForJob fs repoURL token destPath branchName baseBranch = .ok fs' ∧
          fs' destPath = some (cloneContent repoURL branchName baseBranch) ∧
          ∀ q, q ≠ destPath → fs' q = fs q) := by
  constructor
  · rintro (h | h | h | h) <;> subst h <;> exact ⟨_, rfl⟩
  · intro hne1 hne2 hne3 hne4
    have hnor : ¬(destPath = "." ∨ destPath = ".." ∨ destPath = "/") := by
      rintro (h | h | h)
      · exact hne2 h
      · exact hne3 h
      · exact hne4 h
    refine ⟨fun q => if q = destPath then some (cloneContent repoURL branchName baseBranch)
      else removeAll fs destPath q, ?_, ?_, ?_⟩
    · unfold CloneForJob
      rw [if_neg hne1, if_neg hnor]
    · simp
    · intro q hq
      simp [removeAll, hq]

/-- C5 witness: a rejected `..` destination and an accepted nested
destination over an initially empty filesystem. -/
theorem CloneForJob_witness :
    (∃ e, CloneForJob (fun _ => none) "https://example.com/repo.git" "" ".."
        "autopr/job" "main" = .error e) ∧
      ∃ fs', CloneForJob (fun _ => none) "https://example.com/repo.git" ""
          "repos/worktrees/ap-job-123" "autopr/job" "main" = .ok fs' ∧
        fs' "repos/worktrees/ap-job-123"
            = some (cloneContent "https://example.com/repo.git" "autopr/job" "main") ∧
        ∀ q, q ≠ "repos/worktrees/ap-job-123" → fs' q = (fun _ => none : FileSystem) q := by
  constructor
  · exact (CloneForJob_rejects_unsafe_and_removes_stale (fun _ => none)
      "https://example.com/repo.git" "" ".." "autopr/job" "main").1
      (Or.inr (Or.inr (Or.inl rfl)))
  · exact (CloneForJob_rejects_unsafe_and_removes_stale (fun _ => none)
      "https://example.com/repo.git" "" "repos/worktrees/ap-job-123" "autopr/job" "main").2
      (by decide) (by decide) (by decide) (by decide)

/-- C6: once the detected `config_version` of the file's bytes is at
least `CurrentConfigVersion`, `MigrateConfigFile` returns before writing
anything: no backup is created and the file bytes are unchanged — so the
run right after a successful migration (which stamps the current
version) is a no-op. -/
theorem MigrateConfigFile_current_is_noop (detect : String → Nat)
    (migrate0 : String → Except String String) (data : String)
    (h : detect data ≥ CurrentConfigVersion) :
    MigrateConfigFile detect migrate0 (some data)
      = .ok { file := some data, backupWritten := false } := by
  simp only [MigrateConfigFile]
  rw [if_pos h]

/-- C6 witness: a file whose detected version is already 1. -/
theorem MigrateConfigFile_current_is_noop_witness :
    (fun (_ : String) => 1) "config_version = 1" ≥ CurrentConfigVersion ∧
      MigrateConfigFile (fun _ => 1) (fun s => .ok s) (some "config_version = 1")
        = .ok { file := some "config_version = 1", backupWritten := false } :=
  ⟨by decide,
    MigrateConfigFile_current_is_noop (fun _ => 1) (fun s => .ok s) "config_version = 1"
      (by decide)⟩

/-- If the head of `dropWhile p l` exists, it fails `p`. -/
theorem dropWhile_head?_not (p : Char → Bool) :
    ∀ (l : List Char) (c : Char), ((l.dropWhile p).head? = some c) → p c = false := by
  intro l
  induction l with
  | nil => intro c h; exact absurd h (by simp)
  | cons x xs ih =>
      intro c h
      by_cases hx : p x = true
      · rw [List.dropWhile_cons, if_pos hx] at h
        exact ih c h
      · rw [List.dropWhile_cons, if_neg hx] at h
        have hx' : x = c := by simpa using h
        subst hx'
        simpa using hx

theorem length_dropWhile_le (p : Char → Bool) (l : List Char) :
    (l.dropWhile p).length ≤ l.length := by
  induction l with
  | nil => simp
  | cons x xs ih =>
      rw [List.dropWhile_cons]
      by_cases hx : p x = true
      · rw [if_pos hx]
        simp only [List.length_cons]
        omega
      · rw [if_neg hx]

/-- `strings.TrimRight(name, "-")` never leaves a trailing hyphen. -/
theorem trimRightHyphens_no_trailing (l : List Char) :
    (trimRightHyphens l).getLast? ≠ some '-' := by
  unfold trimRightHyphens
  rw [List.getLast?_reverse]
  intro h
  have := dropWhile_head?_not (fun c => c = '-') l.reverse '-' h
  simp at this

theorem trimRightHyphens_length_le (l : List Char) :
    (trimRightHyphens l).length ≤ l.length := by
  unfold trimRightHyphens
  rw [List.length_reverse]
  calc ((l.reverse.dropWhile fun c => c = '-')).length ≤ l.reverse.length :=
        length_dropWhile_le _ _
    _ = l.length := List.length_reverse l

/-- `strings.Trim(result, "-")` never leaves a trailing hyphen, so a
nonempty `slugify` result never ends in `-`. -/
theorem trimHyphens_no_trailing (l : List Char) :
    (trimHyphens l).getLast? ≠ some '-' := by
  unfold trimHyphens
  rw [List.getLast?_reverse]
  intro h
  have := dropWhile_head?_not (fun c => c = '-') (l.dropWhile fun c => c = '-').reverse '-' h
  simp at this

theorem slugify_no_trailing (title : List Char) : (slugify title).getLast? ≠ some '-' :=
  trimHyphens_no_trailing _

/-- Branch names built from a title with a nonempty slug are at most 60
characters and never end in `-`.  (The empty-slug fallback goes through
`db.ShortID`, whose source is not in the repository snapshot.) -/
theorem buildBranchName_bounded_of_nonempty_slug (shortID : List Char → List Char)
    (source sourceIssueID title jobID : List Char) (h : slugify title ≠ []) :
    (buildBranchName shortID source sourceIssueID title jobID).length ≤ 60 ∧
      (buildBranchName shortID source sourceIssueID title jobID).getLast? ≠ some '-' := by
  unfold buildBranchName
  rw [if_neg h]
  by_cases hlen : (branchNameStart source sourceIssueID ++ slugify title).length > 60
  · rw [if_pos hlen]
    constructor
    · calc (trimRightHyphens ((branchNameStart source sourceIssueID ++ slugify title).take
            60)).length
          ≤ ((branchNameStart source sourceIssueID ++ slugify title).take 60).length :=
            trimRightHyphens_length_le _
        _ ≤ 60 := by
            rw [List.length_take]
            omega
    · exact trimRightHyphens_no_trailing _
  · rw [if_neg hlen]
    constructor
    · omega
    · rw [List.getLast?_append_of_ne_nil _ h]
      exact slugify_no_trailing title

/-- C3 witness: the theorem applied to the empty job table, where no
active job exists and the invariant holds trivially. -/
theorem createJobIfNeeded_dedup_witness :
    createJobIfNeeded (createJobIfNeeded [] "ff-1" "myproject" "ff-job-1" 3)
        "ff-1" "myproject" "ff-job-2" 3
      = createJobIfNeeded [] "ff-1" "myproject" "ff-job-1" 3 ∧
      (createJobIfNeeded (createJobIfNeeded [] "ff-1" "myproject" "ff-job-1" 3)
          "ff-1" "myproject" "ff-job-2" 3).length = 0 + 1 ∧
      atMostOneActivePerIssue (createJobIfNeeded [] "ff-1" "myproject" "ff-job-1" 3) := by
  obtain ⟨h1, h2, h3⟩ :=
    createJobIfNeeded_dedup_and_invariant [] "ff-1" "myproject" "ff-job-1" "ff-job-2" 3
  exact ⟨h1, h2 (by decide), h3 (fun f => by simp [atMostOneActivePerIssue])⟩

end Autopr
